import Mathlib

/-!
Verification development for the ghttpping diagnostic tool
(`src/src-tauri/src/lib.rs`).  The Rust code is shallowly embedded: pure
string processing is translated to functions over `List Char` (the decoded
text), subprocess and network interactions are explicit input parameters
(outcome values handed to the embedded control flow), and machine integers
are `Nat` with explicit bounds.  Rust `String` values kept in result records
are Lean `String`s; the parsers operate on their `.data` character lists.
-/

set_option maxRecDepth 10000

/-! ## Basic character and list-of-char utilities (models of Rust `str` ops) -/

/-- Model of Rust `char::to_lowercase` restricted to ASCII letters: every
label the source lowercases is ASCII or katakana, and katakana is a fixed
point of Unicode lowercasing, so charwise ASCII lowering is faithful here. -/
def asciiToLower (c : Char) : Char :=
  if 'A' ≤ c ∧ c ≤ 'Z' then Char.ofNat (c.toNat + 32) else c

/-- Model of Rust `str::to_lowercase` on the texts this program handles. -/
def lowerL (l : List Char) : List Char := l.map asciiToLower

/-- Whitespace test used by Rust `str::trim` (the inputs here only ever
carry ASCII whitespace). -/
def isWsChar (c : Char) : Bool := c = ' ' ∨ c = '\t' ∨ c = '\r' ∨ c = '\n'

/-- Model of Rust `str::trim`. -/
def trimL (l : List Char) : List Char :=
  ((l.dropWhile isWsChar).reverse.dropWhile isWsChar).reverse

/-- Split a character list at every occurrence of `c` (model of
Rust `str::split`). -/
def splitOnChar (c : Char) : List Char → List (List Char)
  | [] => [[]]
  | x :: xs =>
    if x = c then [] :: splitOnChar c xs
    else
      match splitOnChar c xs with
      | [] => [[x]]
      | h :: t => (x :: h) :: t

/-- Model of Rust `str::lines`: split on `'\n'`, strip a trailing `'\r'`
from each line, and a final newline produces no trailing empty line. -/
def linesOf (l : List Char) : List (List Char) :=
  if l = [] then []
  else
    let parts := splitOnChar '\n' l
    let parts := if parts.getLast? = some [] then parts.dropLast else parts
    parts.map (fun p => if p.getLast? = some '\r' then p.dropLast else p)

/-- Boolean prefix test on character lists. -/
def leadsList : List Char → List Char → Bool
  | [], _ => true
  | _ :: _, [] => false
  | p :: ps, x :: xs => p = x && leadsList ps xs

/-- Model of Rust `str::contains` for a pattern string. -/
def containsSub (pat : List Char) : List Char → Bool
  | [] => leadsList pat []
  | x :: xs => leadsList pat (x :: xs) || containsSub pat xs

/-- Split at the first occurrence of `c`, returning the parts before and
after it (model of `str::find` plus the two index slices the source takes,
which are always at character boundaries because `c` is ASCII). -/
def splitFirst (c : Char) : List Char → Option (List Char × List Char)
  | [] => none
  | x :: xs =>
    if x = c then some ([], xs)
    else (splitFirst c xs).map (fun p => (x :: p.1, p.2))

/-- UTF-8 byte length of a character list (Rust `str::len`). -/
def byteLenL (l : List Char) : Nat := (l.map Char.utf8Size).sum

/-- Byte offset of the first occurrence of `pat` (Rust `str::find` with a
string pattern returns a byte index). -/
def byteFindSub (pat : List Char) : List Char → Option Nat
  | [] => if leadsList pat [] then some 0 else none
  | x :: xs =>
    if leadsList pat (x :: xs) then some 0
    else (byteFindSub pat xs).map (· + x.utf8Size)

/-- Model of the Rust slice `s[n..]` with a byte index `n`: `none` models
the panic raised when `n` is not a character boundary or exceeds the
length. -/
def byteDropOpt : List Char → Nat → Option (List Char)
  | l, 0 => some l
  | [], _ + 1 => none
  | c :: rest, n + 1 =>
    if n + 1 < c.utf8Size then none
    else byteDropOpt rest (n + 1 - c.utf8Size)
termination_by structural l _ => l

/-! ## Decimal and hexadecimal digit rendering (models of Rust `Display`) -/

/-- Decimal digit character. -/
def decDigitChar (k : Nat) : Char :=
  match k with
  | 0 => '0' | 1 => '1' | 2 => '2' | 3 => '3' | 4 => '4'
  | 5 => '5' | 6 => '6' | 7 => '7' | 8 => '8' | _ => '9'

/-- Fuel-driven digit accumulation (the fuel `n + 1` always suffices,
and structural recursion on it keeps the definition kernel-reducible). -/
def natDecDigitsAux : Nat → Nat → List Char
  | 0, _ => []
  | fuel + 1, n =>
    if n < 10 then [decDigitChar n]
    else natDecDigitsAux fuel (n / 10) ++ [decDigitChar (n % 10)]

/-- Decimal rendering of a natural number, most significant digit first. -/
def natDecDigits (n : Nat) : List Char := natDecDigitsAux (n + 1) n

/-- Lowercase hexadecimal digit character (Rust formats IPv6 groups in
lowercase hex). -/
def hexDigitChar (k : Nat) : Char :=
  match k with
  | 0 => '0' | 1 => '1' | 2 => '2' | 3 => '3' | 4 => '4'
  | 5 => '5' | 6 => '6' | 7 => '7' | 8 => '8' | 9 => '9'
  | 10 => 'a' | 11 => 'b' | 12 => 'c' | 13 => 'd' | 14 => 'e' | _ => 'f'

/-- Fuel-driven hex digit accumulation. -/
def natHexDigitsAux : Nat → Nat → List Char
  | 0, _ => []
  | fuel + 1, n =>
    if n < 16 then [hexDigitChar n]
    else natHexDigitsAux fuel (n / 16) ++ [hexDigitChar (n % 16)]

/-- Lowercase hexadecimal rendering of a natural number. -/
def natHexDigits (n : Nat) : List Char := natHexDigitsAux (n + 1) n

/-- Join character-list groups with a single `':'` separator. -/
def joinColon : List (List Char) → List Char
  | [] => []
  | [g] => g
  | g :: gs => g ++ ':' :: joinColon gs

/-! ## IP address data model

An `Ipv4Addr` holds the four octets, an `Ipv6Addr` the eight 16-bit
segments, as `Nat`s (the parsers below only construct in-range values). -/

structure Ipv4Addr where
  a : Nat
  b : Nat
  c : Nat
  d : Nat
deriving DecidableEq

structure Ipv6Addr where
  s0 : Nat
  s1 : Nat
  s2 : Nat
  s3 : Nat
  s4 : Nat
  s5 : Nat
  s6 : Nat
  s7 : Nat
deriving DecidableEq

inductive IpAddr where
  | v4 (ip : Ipv4Addr)
  | v6 (ip : Ipv6Addr)
deriving DecidableEq

/-- Segment list of an `Ipv6Addr`. -/
def Ipv6Addr.segs (ip : Ipv6Addr) : List Nat :=
  [ip.s0, ip.s1, ip.s2, ip.s3, ip.s4, ip.s5, ip.s6, ip.s7]

/-! ### Rust std address predicates used by the source

These embed `std::net::Ipv4Addr` / `Ipv6Addr` classification methods
(`is_private`, `is_loopback`, `is_link_local`, `is_broadcast`,
`is_multicast`, `is_unspecified`) by their defining ranges.  IPv6
multicast tests the high byte of the first segment
(`segments()[0] & 0xff00 == 0xff00`), expressed on `Nat` as `s0 / 256 = 255`
for in-range segments. -/

def Ipv4Addr.is_private (ip : Ipv4Addr) : Bool :=
  (ip.a == 10) || (ip.a == 172 && 16 ≤ ip.b && ip.b ≤ 31) || (ip.a == 192 && ip.b == 168)

def Ipv4Addr.is_loopback (ip : Ipv4Addr) : Bool := ip.a == 127

def Ipv4Addr.is_link_local (ip : Ipv4Addr) : Bool := ip.a == 169 && ip.b == 254

def Ipv4Addr.is_broadcast (ip : Ipv4Addr) : Bool :=
  ip.a == 255 && ip.b == 255 && ip.c == 255 && ip.d == 255

def Ipv4Addr.is_multicast (ip : Ipv4Addr) : Bool := 224 ≤ ip.a && ip.a ≤ 239

def Ipv4Addr.is_unspecified (ip : Ipv4Addr) : Bool :=
  ip.a == 0 && ip.b == 0 && ip.c == 0 && ip.d == 0

def Ipv6Addr.is_loopback (ip : Ipv6Addr) : Bool :=
  ip.s0 == 0 && ip.s1 == 0 && ip.s2 == 0 && ip.s3 == 0 &&
  ip.s4 == 0 && ip.s5 == 0 && ip.s6 == 0 && ip.s7 == 1

def Ipv6Addr.is_multicast (ip : Ipv6Addr) : Bool := ip.s0 / 256 == 255

def Ipv6Addr.is_unspecified (ip : Ipv6Addr) : Bool :=
  ip.s0 == 0 && ip.s1 == 0 && ip.s2 == 0 && ip.s3 == 0 &&
  ip.s4 == 0 && ip.s5 == 0 && ip.s6 == 0 && ip.s7 == 0

/-- Embedding of `is_global_ipv4` (src/src-tauri/src/lib.rs, lines 504-511). -/
def is_global_ipv4 (ip : Ipv4Addr) : Bool :=
  !ip.is_private && !ip.is_loopback && !ip.is_link_local &&
  !ip.is_broadcast && !ip.is_multicast && !ip.is_unspecified

/-- Embedding of `is_global_ipv6` (src/src-tauri/src/lib.rs, lines 514-516). -/
def is_global_ipv6 (ip : Ipv6Addr) : Bool :=
  !ip.is_loopback && !ip.is_multicast && !ip.is_unspecified

/-! ### Address parsing (model of Rust `IpAddr::from_str`) -/

def isDecDigitChar (c : Char) : Bool := '0' ≤ c && c ≤ '9'

def isHexDigitChar (c : Char) : Bool :=
  isDecDigitChar c || ('a' ≤ c && c ≤ 'f') || ('A' ≤ c && c ≤ 'F')

def decDigitVal (c : Char) : Nat := c.toNat - 48

def hexDigitVal (c : Char) : Nat :=
  if isDecDigitChar c then c.toNat - 48
  else if 'a' ≤ c && c ≤ 'f' then c.toNat - 87
  else c.toNat - 55

/-- Parse one dotted-quad octet: decimal digits, no leading zero (except
"0" itself), value at most 255 — as the std parser accepts. -/
def parseOctet (l : List Char) : Option Nat :=
  if l = [] then none
  else if !(l.all isDecDigitChar) then none
  else if 1 < l.length ∧ l.head? = some '0' then none
  else
    let v := l.foldl (fun acc c => acc * 10 + decDigitVal c) 0
    if v ≤ 255 then some v else none

/-- Model of `Ipv4Addr::from_str`. -/
def parseIpv4 (l : List Char) : Option Ipv4Addr :=
  match (splitOnChar '.' l).mapM parseOctet with
  | some [a, b, c, d] => some ⟨a, b, c, d⟩
  | _ => none

/-- Parse one IPv6 group: one to four hex digits (leading zeros allowed). -/
def parseHexGroup (l : List Char) : Option Nat :=
  if l = [] then none
  else if !(l.all isHexDigitChar) then none
  else if 4 < l.length then none
  else some (l.foldl (fun acc c => acc * 16 + hexDigitVal c) 0)

/-- Split at the first occurrence of `"::"`. -/
def findDoubleColon : List Char → Option (List Char × List Char)
  | [] => none
  | [_] => none
  | x :: y :: rest =>
    if x = ':' ∧ y = ':' then some ([], rest)
    else (findDoubleColon (y :: rest)).map (fun p => (x :: p.1, p.2))

/-- Parse a colon-separated group sequence whose final part may be an
embedded dotted-quad (contributing the last two 16-bit segments). -/
def parseGroupSeq (parts : List (List Char)) : Option (List Nat) :=
  match parts with
  | [] => some []
  | [p] =>
    if p.contains '.' then
      (parseIpv4 p).map (fun ip => [ip.a * 256 + ip.b, ip.c * 256 + ip.d])
    else (parseHexGroup p).map (fun g => [g])
  | p :: rest =>
    match parseHexGroup p, parseGroupSeq rest with
    | some g, some gs => some (g :: gs)
    | _, _ => none

/-- Build an `Ipv6Addr` from exactly eight segments. -/
def mkIpv6 (l : List Nat) : Ipv6Addr :=
  ⟨l.getD 0 0, l.getD 1 0, l.getD 2 0, l.getD 3 0,
   l.getD 4 0, l.getD 5 0, l.getD 6 0, l.getD 7 0⟩

/-- Model of `Ipv6Addr::from_str`: either eight groups with no `"::"`, or
a head and tail around one `"::"` totalling at most seven groups; a
dotted-quad may stand for the final two segments. -/
def parseIpv6 (l : List Char) : Option Ipv6Addr :=
  match findDoubleColon l with
  | none =>
    match parseGroupSeq (splitOnChar ':' l) with
    | some segs => if segs.length = 8 then some (mkIpv6 segs) else none
    | none => none
  | some (left, right) =>
    if (findDoubleColon right).isSome then none
    else
      let leftParts := if left = [] then some [] else parseGroupSeq (splitOnChar ':' left)
      let rightParts := if right = [] then some [] else parseGroupSeq (splitOnChar ':' right)
      match leftParts, rightParts with
      | some ls, some rs =>
        if ls.length + rs.length ≤ 7 then
          some (mkIpv6 (ls ++ List.replicate (8 - ls.length - rs.length) 0 ++ rs))
        else none
      | _, _ => none

/-- Model of `IpAddr::from_str` (IPv4 first, then IPv6), as invoked by
`ip_str.parse::<IpAddr>()` in the source. -/
def parseIpAddr (l : List Char) : Option IpAddr :=
  match parseIpv4 l with
  | some ip => some (IpAddr.v4 ip)
  | none => (parseIpv6 l).map IpAddr.v6

/-! ### Address display (model of Rust `Display` for addresses)

`to_string` on `Ipv4Addr` renders the dotted quad; on `Ipv6Addr` it
renders lowercase-hex groups compressing the longest zero run of length
at least two (the IPv4-mapped special case of newer std is not
reproduced; every rendering still contains a colon, which is the fact the
proofs use). -/

def ipv4Display (ip : Ipv4Addr) : List Char :=
  natDecDigits ip.a ++ '.' :: natDecDigits ip.b ++ '.' :: natDecDigits ip.c ++ '.' :: natDecDigits ip.d

/-- Length of the zero run starting at index `i`. -/
def zeroRunAt (segs : List Nat) (i : Nat) : Nat :=
  ((segs.drop i).takeWhile (· == 0)).length

/-- Leftmost longest zero run, as `(start, length)`. -/
def bestZeroRun (segs : List Nat) : Nat × Nat :=
  (List.range segs.length).foldl
    (fun acc i => if zeroRunAt segs i > acc.2 then (i, zeroRunAt segs i) else acc)
    (0, 0)

def ipv6Display (ip : Ipv6Addr) : List Char :=
  let segs := ip.segs
  let best := bestZeroRun segs
  if 2 ≤ best.2 then
    joinColon ((segs.take best.1).map natHexDigits) ++
      ':' :: ':' :: joinColon ((segs.drop (best.1 + best.2)).map natHexDigits)
  else joinColon (segs.map natHexDigits)

def ipv4DisplayS (ip : Ipv4Addr) : String := String.mk (ipv4Display ip)

def ipv6DisplayS (ip : Ipv6Addr) : String := String.mk (ipv6Display ip)

/-! ## Result records (mirrors of the Rust structs in lib.rs) -/

structure NetworkAdapter where
  name : String
  ip_addresses : List String
  has_ipv4 : Bool
  has_ipv6 : Bool
  has_ipv4_global : Bool
  has_ipv6_global : Bool
deriving DecidableEq

structure GlobalIPInfo where
  client_host : String
  datetime_jst : String
deriving DecidableEq

structure DnsServerInfo where
  interface_alias : String
  ipv4_dns_servers : List String
  ipv6_dns_servers : List String
deriving DecidableEq

structure EnvironmentCheckResult where
  adapters : List NetworkAdapter
  ipv4_connectivity : Bool
  ipv6_connectivity : Bool
  dns_resolution : Bool
  internet_available : Bool
  ipv4_global_ip : Option GlobalIPInfo
  ipv6_global_ip : Option GlobalIPInfo
  dns_servers : List DnsServerInfo
  error_messages : List String
deriving DecidableEq

structure DnsResolution where
  ipv4_addresses : List String
  ipv6_addresses : List String
deriving DecidableEq

structure HttpPingResult where
  url : String
  ip_address : Option String
  status_code : Option Nat
  response_time_ms : Option Nat
  success : Bool
  error_message : Option String
  verbose_log : Option String
deriving DecidableEq

structure HttpPingDualResult where
  url : String
  dns_resolution : DnsResolution
  ipv4 : HttpPingResult
  ipv6 : HttpPingResult
deriving DecidableEq

/-! ## Outcome types for external interactions

Subprocess invocation and the platform resolver are external to the pure
logic; each call site receives its outcome as an explicit value. -/

/-- Outcome of `Command::output()`: either the launched process's exit
status, exit code, and captured streams (already decoded), or a launch
error. -/
inductive CmdOutcome where
  | ok (exitSuccess : Bool) (exitCode : Option Int) (stdout : List Char) (stderr : List Char)
  | launchErr (e : String)
deriving DecidableEq

/-- Outcome of `tokio::net::lookup_host`. -/
inductive LookupOutcome where
  | ok (addrs : List IpAddr)
  | err
deriving DecidableEq

/-- Outcome of the timed DNS-server-inventory step in `environment_check`:
inner success, inner error, or overall timeout. -/
inductive DnsSrvOutcome where
  | ok (infos : List DnsServerInfo)
  | err (e : String)
  | timeout
deriving DecidableEq

/-! ## Validation functions (lib.rs lines 822-858) -/

/-- Embedding of `validate_url` (lib.rs lines 822-832).  Rust `str::len`
is the UTF-8 byte length. -/
def validate_url (url : String) : Except String Unit :=
  if url.data = [] ∨ 2048 < byteLenL url.data then
    .error "URLが空またはサイズが大きすぎます"
  else if ¬(leadsList "http://".data url.data = true ∨ leadsList "https://".data url.data = true) then
    .error "URLは http:// または https:// で始まる必要があります"
  else .ok ()

/-- The shell metacharacters rejected in hostnames (lib.rs line 841); the
second entry is the backquote character. -/
def dangerousChars : List Char := ['$', Char.ofNat 96, '|', '&', ';', '>', '<', '(', ')']

/-- Embedding of `validate_hostname` (lib.rs lines 835-847). -/
def validate_hostname (host : String) : Except String Unit :=
  if host.data = [] ∨ 255 < byteLenL host.data then
    .error "ホスト名が無効です"
  else if dangerousChars.any (fun c => host.data.contains c) then
    .error "ホスト名に無効な文字が含まれています"
  else .ok ()

/-- Embedding of `is_valid_adapter_name` (lib.rs lines 850-858); Rust
`char::is_control` is the Unicode Cc category. -/
def isControlChar (c : Char) : Bool :=
  c.toNat < 32 || c.toNat == 127 || (128 ≤ c.toNat && c.toNat ≤ 159)

def is_valid_adapter_name (name : String) : Bool :=
  !(name.data = [] ∨ 255 < byteLenL name.data) && name.data.all (fun c => !isControlChar c)

/-- Embedding of `is_valid_ip_address` (lib.rs lines 861-873). -/
def is_valid_ip_address (s : String) : Bool :=
  match parseIpAddr s.data with
  | some (IpAddr.v4 ip) => !ip.is_loopback
  | some (IpAddr.v6 ip) => !ip.is_loopback
  | none => false

/-- Embedding of `is_ip_address_like` (lib.rs lines 876-883). -/
def is_ip_address_like (s : List Char) : Bool :=
  let dot_count := s.count '.'
  let colon_count := s.count ':'
  let has_hex := s.any isHexDigitChar
  let has_digit := s.any isDecDigitChar
  (3 ≤ dot_count && has_digit) || (2 ≤ colon_count && has_hex)

/-! ## Address analysis (lib.rs lines 886-912) -/

/-- One iteration of the `analyze_ip_addresses` loop; the four booleans
are `(has_ipv4, has_ipv6, has_ipv4_global, has_ipv6_global)`. -/
def analyzeStep (acc : Bool × Bool × Bool × Bool) (s : String) : Bool × Bool × Bool × Bool :=
  match parseIpAddr s.data with
  | some (IpAddr.v4 ip) => (true, acc.2.1, acc.2.2.1 || is_global_ipv4 ip, acc.2.2.2)
  | some (IpAddr.v6 ip) => (acc.1, true, acc.2.2.1, acc.2.2.2 || is_global_ipv6 ip)
  | none => acc

/-- Embedding of `analyze_ip_addresses` (lib.rs lines 886-912). -/
def analyze_ip_addresses (ip_addresses : List String) : Bool × Bool × Bool × Bool :=
  ip_addresses.foldl analyzeStep (false, false, false, false)

/-- Pure core of `get_network_interfaces` (lib.rs lines 432-501): takes
the decoded adapter-name listing and, for each adapter name, the decoded
output of the per-adapter address query (`none` models a failed
invocation, which the source skips). -/
def get_network_interfaces_core (namesText : List Char)
    (ipOut : String → Option (List Char)) : List NetworkAdapter :=
  (linesOf namesText).filterMap (fun nl =>
    let name := trimL nl
    if name = [] then none
    else if !is_valid_adapter_name (String.mk name) then none
    else
      match ipOut (String.mk name) with
      | none => none
      | some out =>
        let ips := ((linesOf out).map (fun s => String.mk (trimL s))).filter
          (fun s => !s.isEmpty && is_valid_ip_address s)
        let t := analyze_ip_addresses ips
        some ⟨String.mk name, ips, t.1, t.2.1, t.2.2.1, t.2.2.2⟩)

/-! ## DNS resolution (lib.rs lines 233-270) -/

/-- The `for addr in addrs` loop of `resolve_dns`, with its two
deduplicating accumulators. -/
def resolveDnsLoop : List IpAddr → List String → List String → DnsResolution
  | [], v4s, v6s => ⟨v4s, v6s⟩
  | IpAddr.v4 ip :: rest, v4s, v6s =>
    let s := ipv4DisplayS ip
    if v4s.contains s then resolveDnsLoop rest v4s v6s
    else resolveDnsLoop rest (v4s ++ [s]) v6s
  | IpAddr.v6 ip :: rest, v4s, v6s =>
    let s := ipv6DisplayS ip
    if v6s.contains s then resolveDnsLoop rest v4s v6s
    else resolveDnsLoop rest v4s (v6s ++ [s])

/-- Embedding of `resolve_dns` (lib.rs lines 233-270): a resolver error
only logs and yields the empty resolution. -/
def resolve_dns : LookupOutcome → DnsResolution
  | LookupOutcome.ok addrs => resolveDnsLoop addrs [] []
  | LookupOutcome.err => ⟨[], []⟩

/-! ## HTTP probing (lib.rs lines 272-429)

The curl argument construction (lines 321-353) only feeds the subprocess;
the probe's observable behaviour is a function of the subprocess outcome,
which is the `CmdOutcome` parameter here.  `elapsed` is the measured
wall-clock milliseconds. -/

/-- Model of Rust `u16::from_str`: optional `'+'` sign, then decimal
digits, value at most 65535. -/
def parseU16 (l : List Char) : Option Nat :=
  let digits := match l with
    | '+' :: rest => rest
    | _ => l
  if digits = [] then none
  else if !(digits.all isDecDigitChar) then none
  else
    let v := digits.foldl (fun acc c => acc * 10 + decDigitVal c) 0
    if v ≤ 65535 then some v else none

/-- Embedding of `perform_curl_request` (lib.rs lines 307-429). -/
def perform_curl_request (original_url : String) (ip_address : String)
    (_host : String) (_ignore_tls_errors : Bool) (_port : Option Nat)
    (_save_verbose_log : Bool) (elapsed : Nat) (outcome : CmdOutcome) : HttpPingResult :=
  match outcome with
  | CmdOutcome.launchErr e =>
    ⟨original_url, some ip_address, none, some elapsed, false,
      some ("curl 実行失敗: " ++ e), none⟩
  | CmdOutcome.ok exitSuccess exitCode out errOut =>
    let status_code_str := trimL out
    let verbose_log_str := trimL errOut
    let verbose_log := if verbose_log_str ≠ [] then some (String.mk verbose_log_str) else none
    if exitSuccess = true ∧ status_code_str ≠ [] then
      match parseU16 status_code_str with
      | some status_code =>
        let success : Bool := decide (200 ≤ status_code ∧ status_code < 300)
        ⟨original_url, some ip_address, some status_code, some elapsed, success,
          if success then none
          else some ("HTTPステータス: " ++ String.mk (natDecDigits status_code)),
          verbose_log⟩
      | none =>
        ⟨original_url, some ip_address, none, some elapsed, false,
          some ("ステータスコード解析失敗: " ++ String.mk status_code_str), verbose_log⟩
    else
      let error_msg :=
        if verbose_log_str ≠ [] then String.mk verbose_log_str
        else "curl 終了コード: " ++ toString (exitCode.getD (-1))
      ⟨original_url, some ip_address, none, some elapsed, false,
        some ("接続エラー: " ++ error_msg), verbose_log⟩

/-- Embedding of `connect_to_ip_with_host` (lib.rs lines 273-304). -/
def connect_to_ip_with_host (original_url : String) (ip_addresses : List String)
    (host : String) (ignore_tls_errors : Bool) (port : Option Nat)
    (save_verbose_log : Bool) (elapsed : Nat) (outcome : CmdOutcome) : HttpPingResult :=
  match ip_addresses with
  | [] =>
    let is_https := leadsList "https".data original_url.data
    ⟨original_url, none, none, none, false,
      some (if is_https then "IPv6アドレスが見つかりません" else "IPv4アドレスが見つかりません"),
      none⟩
  | ip_address :: _ =>
    perform_curl_request original_url ip_address host ignore_tls_errors port
      save_verbose_log elapsed outcome

/-- Embedding of `ping_http_dual` (lib.rs lines 174-230).  `urlParse`
models `Url::parse` (error string, or extracted host and explicit port);
`lookup` feeds `resolve_dns`; `o4`/`o6` and `t4`/`t6` are the two
concurrent probes' subprocess outcomes and elapsed times.  The
`log_security_warning` call only writes to stderr and has no bearing on
the returned value. -/
def ping_http_dual (url : String) (ignore_tls_errors : Bool) (save_verbose_log : Bool)
    (urlParse : Except String (Option String × Option Nat))
    (lookup : LookupOutcome) (o4 o6 : CmdOutcome) (t4 t6 : Nat) :
    Except String HttpPingDualResult :=
  match validate_url url with
  | Except.error e => Except.error e
  | Except.ok _ =>
    match urlParse with
    | Except.error e => Except.error ("無効なURL: " ++ e)
    | Except.ok (hostOpt, port) =>
      match hostOpt with
      | none => Except.error "URLからホスト名を抽出できません"
      | some host =>
        match validate_hostname host with
        | Except.error e => Except.error e
        | Except.ok _ =>
          let dns_result := resolve_dns lookup
          Except.ok ⟨url, dns_result,
            connect_to_ip_with_host url dns_result.ipv4_addresses host
              ignore_tls_errors port save_verbose_log t4 o4,
            connect_to_ip_with_host url dns_result.ipv6_addresses host
              ignore_tls_errors port save_verbose_log t6 o6⟩

/-! ## Orchestrator (lib.rs lines 81-172) -/

/-- Embedding of `environment_check` (lib.rs lines 81-172) as a function
of the five sub-step outcomes, in the order the source performs them. -/
def environment_check (adRes : Except String (List NetworkAdapter))
    (v4Res v6Res : Except String GlobalIPInfo)
    (dnsRes : Except String Bool) (srvRes : DnsSrvOutcome) : EnvironmentCheckResult :=
  let adaptersPart :=
    match adRes with
    | Except.ok a => (a, ([] : List String))
    | Except.error e => ([], ["ネットワークアダプタの取得に失敗: " ++ e])
  let v4Part :=
    match v4Res with
    | Except.ok info => (true, some info, ([] : List String))
    | Except.error e => (false, none, ["IPv4グローバルIP取得に失敗: " ++ e])
  let v6Part :=
    match v6Res with
    | Except.ok info => (true, some info, ([] : List String))
    | Except.error e =>
      (false, none, if v4Part.1 then [] else ["IPv6グローバルIP取得に失敗: " ++ e])
  let dnsPart :=
    match dnsRes with
    | Except.ok resolved => (resolved, ([] : List String))
    | Except.error e => (false, ["DNS解決確認に失敗: " ++ e])
  let srvPart :=
    match srvRes with
    | DnsSrvOutcome.ok infos => (infos, ([] : List String))
    | DnsSrvOutcome.err e => ([], ["DNSサーバ情報取得に失敗: " ++ e])
    | DnsSrvOutcome.timeout => ([], ["DNSサーバ情報取得がタイムアウトしました"])
  { adapters := adaptersPart.1
    ipv4_connectivity := v4Part.1
    ipv6_connectivity := v6Part.1
    dns_resolution := dnsPart.1
    internet_available := (v4Part.1 || v6Part.1) && dnsPart.1
    ipv4_global_ip := v4Part.2.1
    ipv6_global_ip := v6Part.2.1
    dns_servers := srvPart.1
    error_messages :=
      adaptersPart.2 ++ v4Part.2.2 ++ v6Part.2.2 ++ dnsPart.2 ++ srvPart.2 }

/-! ## DNS-server discovery, flat PowerShell strategy (lib.rs lines 642-706) -/

/-- Split at the first occurrence of a substring pattern, returning the
text before and after it (model of `str::find` with a string pattern plus
the two slices the source takes; the patterns used are ASCII, so the byte
offsets are character boundaries). -/
def splitFirstSub (pat : List Char) : List Char → Option (List Char × List Char)
  | [] => none
  | x :: xs =>
    if leadsList pat (x :: xs) then some ([], (x :: xs).drop pat.length)
    else (splitFirstSub pat xs).map (fun p => (x :: p.1, p.2))

/-- The push into a per-interface `(v4, v6)` bucket pair used by the
PowerShell strategy (lib.rs lines 681-686): v6 when more than one colon,
else v4 when a dot is present — with no deduplication. -/
def psPush (entry : List String × List String) (ip : String) : List String × List String :=
  if 1 < ip.data.count ':' then (entry.1, entry.2 ++ [ip])
  else if ip.data.contains '.' then (entry.1 ++ [ip], entry.2)
  else entry

/-- Model of `HashMap::entry(..).or_insert_with(..)` followed by the push:
an insertion-ordered association list stands in for the hash map (the
claims proved below do not depend on iteration order). -/
def psUpdate : List (String × (List String × List String)) → String → String →
    List (String × (List String × List String))
  | [], k, ip => [(k, psPush ([], []) ip)]
  | (k', v) :: rest, k, ip =>
    if k' = k then (k', psPush v ip) :: rest
    else (k', v) :: psUpdate rest k ip

/-- The line loop of `get_dns_servers_from_powershell` (lib.rs lines
666-689) over the decoded output text. -/
def psParseLines (text : List Char) : List (String × (List String × List String)) :=
  (linesOf text).foldl
    (fun m rawLine =>
      let line := trimL rawLine
      if line = [] then m
      else
        match splitFirstSub " : ".data line with
        | none => m
        | some (before, after) =>
          let adapter_name := String.mk (trimL before)
          let ip_addr := String.mk (trimL after)
          if is_ip_address_like ip_addr.data then psUpdate m adapter_name ip_addr
          else m)
    []

/-- Pure core of `get_dns_servers_from_powershell` (lib.rs lines 642-706):
decoded output text to emitted records (an interface is emitted only when
it has at least one address in either family). -/
def get_dns_servers_from_powershell_core (text : List Char) : List DnsServerInfo :=
  (psParseLines text).foldl
    (fun acc e =>
      if e.2.1 ≠ [] ∨ e.2.2 ≠ [] then
        acc ++ [⟨e.1, e.2.1, e.2.2⟩]
      else acc)
    []

/-- Embedding of `get_dns_servers_from_powershell` (lib.rs lines 642-706),
including the empty-result error. -/
def get_dns_servers_from_powershell (text : List Char) : Except String (List DnsServerInfo) :=
  let result := get_dns_servers_from_powershell_core text
  if result = [] then Except.error "PowerShell から DNS 情報を取得できませんでした"
  else Except.ok result

/-! ## DNS-server discovery, verbose ipconfig strategy (lib.rs lines 709-816) -/

/-- Deduplicating bucket push shared by the DNS-server line and the
indented continuation line (lib.rs lines 771-781 and 790-800). -/
def bucketDedup (v4s v6s : List String) (tok : List Char) : List String × List String :=
  let s := String.mk tok
  if 1 < tok.count ':' then
    (v4s, if v6s.contains s then v6s else v6s ++ [s])
  else if tok.contains '.' then
    (if v4s.contains s then v4s else v4s ++ [s], v6s)
  else (v4s, v6s)

/-- Flush the current adapter's buckets into the result (lib.rs lines
739-747 and 805-813): a record is emitted only when either bucket is
nonempty. -/
def ipconfigFlush (cur : Option String) (v4s v6s : List String)
    (acc : List DnsServerInfo) : List DnsServerInfo :=
  match cur with
  | some name => if v4s ≠ [] ∨ v6s ≠ [] then acc ++ [⟨name, v4s, v6s⟩] else acc
  | none => acc

/-- The adapter-name extraction of lib.rs lines 750-758: the localized
prefix is searched in the lowercased name but the slice is taken from the
original at the found byte offset plus a literal `5` (Japanese) or `8`
(English); `none` models the slice panic when that offset is not a
character boundary. -/
def ipconfigExtractName (adapter_name : List Char) : Option (List Char) :=
  let lowered := lowerL adapter_name
  match byteFindSub "アダプター ".data lowered with
  | some p => byteDropOpt adapter_name (p + 5)
  | none =>
    match byteFindSub "adapter ".data lowered with
    | some p => byteDropOpt adapter_name (p + 8)
    | none => some adapter_name

/-- The line loop of `parse_dns_from_ipconfig` (lib.rs lines 728-802),
with the state `(current_adapter, current_ipv4_dns, current_ipv6_dns,
result)`; the overall `none` models a panic inside the loop. -/
def ipconfigLoop : List (List Char) → Option String → List String → List String →
    List DnsServerInfo → Option (List DnsServerInfo)
  | [], cur, v4s, v6s, acc => some (ipconfigFlush cur v4s v6s acc)
  | line :: rest, cur, v4s, v6s, acc =>
    let line_lower := lowerL line
    let trimmed := trimL line
    if ¬ leadsList [' '] line = true ∧ line ≠ [] ∧
        (containsSub "アダプター".data line_lower = true ∨
          containsSub "adapter".data line_lower = true) ∧
        line.contains ':' = true then
      let acc' := ipconfigFlush cur v4s v6s acc
      match splitFirst ':' line with
      | some (before, _) =>
        match ipconfigExtractName (trimL before) with
        | none => none
        | some extracted =>
          ipconfigLoop rest (some (String.mk extracted)) [] [] acc'
      | none => ipconfigLoop rest none v4s v6s acc'
    else if cur.isSome = true ∧
        (containsSub "dns サーバー".data line_lower = true ∨
          containsSub "dns servers".data line_lower = true) ∧
        line.contains ':' = true then
      match splitFirst ':' line with
      | some (_, after) =>
        let dns_part := trimL after
        if dns_part ≠ [] ∧ is_ip_address_like dns_part = true then
          let b := bucketDedup v4s v6s dns_part
          ipconfigLoop rest cur b.1 b.2 acc
        else ipconfigLoop rest cur v4s v6s acc
      | none => ipconfigLoop rest cur v4s v6s acc
    else if cur.isSome = true ∧ leadsList [' '] line = true ∧ trimmed ≠ [] ∧
        ¬ containsSub " . ".data line = true ∧ is_ip_address_like trimmed = true then
      let b := bucketDedup v4s v6s trimmed
      ipconfigLoop rest cur b.1 b.2 acc
    else ipconfigLoop rest cur v4s v6s acc

/-- Pure core of `parse_dns_from_ipconfig` (lib.rs lines 709-816) over the
decoded command output; `none` models a panic during parsing. -/
def parse_dns_from_ipconfig_core (text : List Char) : Option (List DnsServerInfo) :=
  ipconfigLoop (linesOf text) none [] [] []

/-! ## Helper predicates used in theorem statements -/

/-- Does the string parse as an IPv4 address (under the source's parser)? -/
def isV4Str (s : String) : Bool :=
  match parseIpAddr s.data with
  | some (IpAddr.v4 _) => true
  | _ => false

def isV6Str (s : String) : Bool :=
  match parseIpAddr s.data with
  | some (IpAddr.v6 _) => true
  | _ => false

def isGlobalV4Str (s : String) : Bool :=
  match parseIpAddr s.data with
  | some (IpAddr.v4 ip) => is_global_ipv4 ip
  | _ => false

def isGlobalV6Str (s : String) : Bool :=
  match parseIpAddr s.data with
  | some (IpAddr.v6 ip) => is_global_ipv6 ip
  | _ => false

/-- Rendered-string projection of the IPv4 members of a resolver result. -/
def projV4 (a : IpAddr) : Option String :=
  match a with
  | IpAddr.v4 ip => some (ipv4DisplayS ip)
  | IpAddr.v6 _ => none

/-- Rendered-string projection of the IPv6 members of a resolver result. -/
def projV6 (a : IpAddr) : Option String :=
  match a with
  | IpAddr.v4 _ => none
  | IpAddr.v6 ip => some (ipv6DisplayS ip)

/-! ## Concrete test inputs -/

/-- An English-locale `ipconfig /all` style dump with two interfaces, each
listing one IPv4 and one IPv6 DNS server. -/
def enDump : String :=
  "Windows IP Configuration\n\nEthernet adapter Ethernet:\n\n   DNS Servers . . . . . . . . . . . : 8.8.8.8\n                                       2001:4860:4860::8888\n\nWireless LAN adapter Wi-Fi:\n\n   DNS Servers . . . . . . . . . . . : 1.1.1.1\n                                       2606:4700:4700::1111\n"

/-- The same dump under the Japanese label set. -/
def jaDump : String :=
  "Windows IP 構成\n\nイーサネット アダプター イーサネット:\n\n   DNS サーバー. . . . . . . . . . . : 8.8.8.8\n                                       2001:4860:4860::8888\n\nWireless LAN アダプター Wi-Fi:\n\n   DNS サーバー. . . . . . . . . . . : 1.1.1.1\n                                       2606:4700:4700::1111\n"

/-- PowerShell flat-format output repeating the same DNS server twice for
one interface. -/
def psDupText : String := "Ethernet : 8.8.8.8\nEthernet : 8.8.8.8\n"

/-! ## Claim theorems -/

/-- C1: the claim says an empty candidate list yields an error message
naming the unavailable family regardless of the URL scheme.  The code
instead selects the message by the scheme: with an `http://` URL the IPv6
probe (whose candidate list is the empty one) reports the IPv4 message,
and with an `https://` URL the IPv4 probe reports the IPv6 message.  This
theorem evaluates `ping_http_dual` at both failing inputs (DNS yields no
addresses at all, so both probes take the empty-candidate branch). -/
theorem c1_empty_candidate_message_follows_scheme :
    (ping_http_dual "http://example.com" false false
        (Except.ok (some "example.com", none)) (LookupOutcome.ok [])
        (CmdOutcome.ok true (some 0) [] []) (CmdOutcome.ok true (some 0) [] []) 0 0 =
      Except.ok
        ⟨"http://example.com", ⟨[], []⟩,
          ⟨"http://example.com", none, none, none, false,
            some "IPv4アドレスが見つかりません", none⟩,
          ⟨"http://example.com", none, none, none, false,
            some "IPv4アドレスが見つかりません", none⟩⟩) ∧
    (ping_http_dual "https://example.com" false false
        (Except.ok (some "example.com", none)) (LookupOutcome.ok [])
        (CmdOutcome.ok true (some 0) [] []) (CmdOutcome.ok true (some 0) [] []) 0 0 =
      Except.ok
        ⟨"https://example.com", ⟨[], []⟩,
          ⟨"https://example.com", none, none, none, false,
            some "IPv6アドレスが見つかりません", none⟩,
          ⟨"https://example.com", none, none, none, false,
            some "IPv6アドレスが見つかりません", none⟩⟩) :=
  ⟨rfl, rfl⟩

/-- C3: in every `environment_check` result, `internet_available` equals
`(ipv4_connectivity OR ipv6_connectivity) AND dns_resolution`. -/
theorem c3_internet_available_formula (adRes : Except String (List NetworkAdapter))
    (v4Res v6Res : Except String GlobalIPInfo) (dnsRes : Except String Bool)
    (srvRes : DnsSrvOutcome) :
    (environment_check adRes v4Res v6Res dnsRes srvRes).internet_available =
      (((environment_check adRes v4Res v6Res dnsRes srvRes).ipv4_connectivity ||
        (environment_check adRes v4Res v6Res dnsRes srvRes).ipv6_connectivity) &&
        (environment_check adRes v4Res v6Res dnsRes srvRes).dns_resolution) := rfl

/-- C5: the claim says the English and the Japanese verbose dump parse to
the same two correctly partitioned records.  The English dump does parse
to the expected two records, but on the Japanese dump the adapter-name
slice at byte offset `find("アダプター ") + 5` falls inside the multi-byte
character `ダ`, so the parse panics (modelled as `none`) instead of
producing any records. -/
theorem c5_localized_dump_panics :
    parse_dns_from_ipconfig_core enDump.data =
      some [⟨"Ethernet", ["8.8.8.8"], ["2001:4860:4860::8888"]⟩,
            ⟨"Wi-Fi", ["1.1.1.1"], ["2606:4700:4700::1111"]⟩] ∧
    parse_dns_from_ipconfig_core jaDump.data = none :=
  ⟨rfl, rfl⟩

/-- C6 counterexample: the flat PowerShell strategy does not deduplicate —
feeding the same `interface : address` line twice yields a record whose
IPv4 list holds the address twice. -/
theorem c6_counterexample :
    ¬ ∀ rec ∈ get_dns_servers_from_powershell_core psDupText.data,
        rec.ipv4_dns_servers.Nodup := by decide

/-- C9 counterexample: a link-local IPv6 address (`fe80::1`) is classified
global by `is_global_ipv6` (it is none of loopback, multicast,
unspecified), and `analyze_ip_addresses` therefore sets both `has_ipv6`
and `has_ipv6_global` for it — refuting the claim that link-local v6
counts as non-global. -/
theorem c9_counterexample :
    is_global_ipv6 ⟨65152, 0, 0, 0, 0, 0, 0, 1⟩ = true ∧
    analyze_ip_addresses ["fe80::1"] = (false, true, false, true) := by decide

/-- Two strings whose character data start with different characters are
different. -/
theorem string_ne_of_head_ne (c c' : Char) {s t : String}
    (hs : s.data.head? = some c) (ht : t.data.head? = some c') (hcc : c ≠ c') : s ≠ t := by
  intro h
  subst h
  rw [hs] at ht
  exact hcc (Option.some.inj ht)

/-- Helper for C2: the result of `perform_curl_request` satisfies the
success-iff-2xx invariant in every branch. -/
theorem perform_curl_success_iff (original_url ip_address host : String)
    (tls : Bool) (port : Option Nat) (sv : Bool) (elapsed : Nat) (outcome : CmdOutcome) :
    (perform_curl_request original_url ip_address host tls port sv elapsed outcome).success = true ↔
      ∃ c, (perform_curl_request original_url ip_address host tls port sv elapsed
              outcome).status_code = some c ∧ 200 ≤ c ∧ c < 300 := by
  cases outcome with
  | launchErr e => simp [perform_curl_request]
  | ok es code out errOut =>
    simp only [perform_curl_request]
    split
    · split
      · simp [decide_eq_true_iff]
      · simp
    · simp

/-- C2: for every probe result (empty candidate list, curl launch
failure, non-zero exit, unparsable status, or a parsed status), the
success flag is true exactly when a status code is present and lies in
`[200, 300)`. -/
theorem c2_success_iff_2xx (original_url : String) (ip_addresses : List String)
    (host : String) (tls : Bool) (port : Option Nat) (sv : Bool) (elapsed : Nat)
    (outcome : CmdOutcome) :
    (connect_to_ip_with_host original_url ip_addresses host tls port sv elapsed
        outcome).success = true ↔
      ∃ c, (connect_to_ip_with_host original_url ip_addresses host tls port sv elapsed
              outcome).status_code = some c ∧ 200 ≤ c ∧ c < 300 := by
  cases ip_addresses with
  | nil => simp [connect_to_ip_with_host]
  | cons ip rest =>
    exact perform_curl_success_iff original_url ip host tls port sv elapsed outcome

/-- The v6-egress failure message differs from the adapter-failure message. -/
theorem v6msg_ne_ad (s a : String) :
    ("IPv6グローバルIP取得に失敗: " ++ s) ≠ ("ネットワークアダプタの取得に失敗: " ++ a) :=
  string_ne_of_head_ne 'I' 'ネ' (by rw [String.data_append]; rfl)
    (by rw [String.data_append]; rfl) (by decide)

/-- The v6-egress failure message differs from the DNS-check failure message. -/
theorem v6msg_ne_dns (s a : String) :
    ("IPv6グローバルIP取得に失敗: " ++ s) ≠ ("DNS解決確認に失敗: " ++ a) :=
  string_ne_of_head_ne 'I' 'D' (by rw [String.data_append]; rfl)
    (by rw [String.data_append]; rfl) (by decide)

/-- The v6-egress failure message differs from the DNS-server failure message. -/
theorem v6msg_ne_srv (s a : String) :
    ("IPv6グローバルIP取得に失敗: " ++ s) ≠ ("DNSサーバ情報取得に失敗: " ++ a) :=
  string_ne_of_head_ne 'I' 'D' (by rw [String.data_append]; rfl)
    (by rw [String.data_append]; rfl) (by decide)

/-- The v6-egress failure message differs from the DNS-server timeout message. -/
theorem v6msg_ne_timeout (s : String) :
    ("IPv6グローバルIP取得に失敗: " ++ s) ≠ "DNSサーバ情報取得がタイムアウトしました" :=
  string_ne_of_head_ne 'I' 'D' (by rw [String.data_append]; rfl) rfl (by decide)

/-- C4: when the v4 egress check succeeds and the v6 egress check fails,
`ipv6_connectivity` is recorded as `false` but no v6-egress-failure
message is appended to `error_messages`; when the v4 egress check fails,
the v4-egress-failure message is always present, regardless of the other
outcomes. -/
theorem c4_error_suppression_policy :
    (∀ (adRes : Except String (List NetworkAdapter)) (dnsRes : Except String Bool)
        (srvRes : DnsSrvOutcome) (info : GlobalIPInfo) (e s : String),
      (environment_check adRes (Except.ok info) (Except.error e) dnsRes
          srvRes).ipv6_connectivity = false ∧
      ("IPv6グローバルIP取得に失敗: " ++ s) ∉
        (environment_check adRes (Except.ok info) (Except.error e) dnsRes
          srvRes).error_messages) ∧
    (∀ (adRes : Except String (List NetworkAdapter)) (v6Res : Except String GlobalIPInfo)
        (dnsRes : Except String Bool) (srvRes : DnsSrvOutcome) (e : String),
      ("IPv4グローバルIP取得に失敗: " ++ e) ∈
        (environment_check adRes (Except.error e) v6Res dnsRes srvRes).error_messages) := by
  constructor
  · intro adRes dnsRes srvRes info e s
    refine ⟨rfl, ?_⟩
    cases adRes <;> cases dnsRes <;> cases srvRes <;>
      simp [environment_check, v6msg_ne_ad, v6msg_ne_dns, v6msg_ne_srv, v6msg_ne_timeout]
  · intro adRes v6Res dnsRes srvRes e
    cases adRes <;> cases v6Res <;> cases dnsRes <;> cases srvRes <;>
      simp [environment_check]

/-- A character list has at least as many UTF-8 bytes as characters. -/
theorem length_le_byteLenL (l : List Char) : l.length ≤ byteLenL l := by
  induction l with
  | nil => simp [byteLenL]
  | cons c rest ih =>
    have hc := Char.utf8Size_pos c
    simp only [byteLenL, List.map_cons, List.sum_cons, List.length_cons]
    simp only [byteLenL] at ih
    omega

/-- C8: `ping_http_dual` rejects, before consulting the resolver or probe
outcomes, every URL that is empty, longer than 2048 characters, or not
starting with `http://` or `https://`, and every extracted hostname that
is empty, longer than 255 characters, or containing a shell
metacharacter; the returned value is the validation error and is the same
for every resolver/probe outcome. -/
theorem c8_validation_rejects_before_io (url : String) (tls sv : Bool) :
    ((url.data = [] ∨ 2048 < url.data.length ∨
        (¬ leadsList "http://".data url.data = true ∧
          ¬ leadsList "https://".data url.data = true)) →
      ∀ (urlParse : Except String (Option String × Option Nat)) (lookup : LookupOutcome)
        (o4 o6 : CmdOutcome) (t4 t6 : Nat),
        ping_http_dual url tls sv urlParse lookup o4 o6 t4 t6 =
          Except.error (if url.data = [] ∨ 2048 < byteLenL url.data
            then "URLが空またはサイズが大きすぎます"
            else "URLは http:// または https:// で始まる必要があります")) ∧
    (∀ (host : String) (port : Option Nat),
      (host.data = [] ∨ 255 < host.data.length ∨ ∃ c ∈ dangerousChars, c ∈ host.data) →
      validate_url url = Except.ok () →
      ∀ (lookup : LookupOutcome) (o4 o6 : CmdOutcome) (t4 t6 : Nat),
        ping_http_dual url tls sv (Except.ok (some host, port)) lookup o4 o6 t4 t6 =
          Except.error (if host.data = [] ∨ 255 < byteLenL host.data
            then "ホスト名が無効です"
            else "ホスト名に無効な文字が含まれています")) := by
  constructor
  · intro hbad urlParse lookup o4 o6 t4 t6
    have hv : validate_url url =
        Except.error (if url.data = [] ∨ 2048 < byteLenL url.data
          then "URLが空またはサイズが大きすぎます"
          else "URLは http:// または https:// で始まる必要があります") := by
      unfold validate_url
      by_cases h1 : url.data = [] ∨ 2048 < byteLenL url.data
      · simp [h1]
      · have hlen := length_le_byteLenL url.data
        have hscheme : ¬ leadsList "http://".data url.data = true ∧
            ¬ leadsList "https://".data url.data = true := by
          rcases hbad with h | h | h
          · exact absurd (Or.inl h) h1
          · exact absurd (Or.inr (by omega)) h1
          · exact h
        simp [h1, hscheme.1, hscheme.2]
    simp [ping_http_dual, hv]
  · intro host port hbad hok lookup o4 o6 t4 t6
    have hh : validate_hostname host =
        Except.error (if host.data = [] ∨ 255 < byteLenL host.data
          then "ホスト名が無効です"
          else "ホスト名に無効な文字が含まれています") := by
      unfold validate_hostname
      by_cases h1 : host.data = [] ∨ 255 < byteLenL host.data
      · simp [h1]
      · have hlen := length_le_byteLenL host.data
        have hd : ∃ c ∈ dangerousChars, c ∈ host.data := by
          rcases hbad with h | h | h
          · exact absurd (Or.inl h) h1
          · exact absurd (Or.inr (by omega)) h1
          · exact h
        simp [h1, hd]
    simp [ping_http_dual, hok, hh]

/-- C8 witness: the malformed URL `"ftp://bad"` is rejected with the
scheme validation error, and a hostname carrying `'$'` is rejected with
the metacharacter validation error, both regardless of the (here
arbitrary) resolver and probe outcomes. -/
theorem c8_witness :
    ping_http_dual "ftp://bad" false false (Except.ok (some "bad", none)) LookupOutcome.err
        (CmdOutcome.launchErr "") (CmdOutcome.launchErr "") 0 0 =
      Except.error "URLは http:// または https:// で始まる必要があります" ∧
    ping_http_dual "http://a$b.example" false false
        (Except.ok (some "a$b.example", none)) LookupOutcome.err
        (CmdOutcome.launchErr "") (CmdOutcome.launchErr "") 0 0 =
      Except.error "ホスト名に無効な文字が含まれています" := by
  constructor
  · exact (c8_validation_rejects_before_io "ftp://bad" false false).1 (by decide)
      (Except.ok (some "bad", none)) LookupOutcome.err
      (CmdOutcome.launchErr "") (CmdOutcome.launchErr "") 0 0
  · exact (c8_validation_rejects_before_io "http://a$b.example" false false).2
      "a$b.example" none (by decide) rfl LookupOutcome.err
      (CmdOutcome.launchErr "") (CmdOutcome.launchErr "") 0 0

/-- C9 (amended): the IPv4 classifier marks an address global exactly when
it is in none of the private, loopback, link-local, broadcast, multicast,
or unspecified ranges; the IPv6 classifier marks an address global
exactly when it is none of loopback, multicast, or unspecified — so a
link-local IPv6 address (`fe80::/10`) is classified global. -/
theorem c9_amended_global_classification :
    (∀ ip : Ipv4Addr,
      is_global_ipv4 ip = true ↔
        ¬(ip.a = 10 ∨ (ip.a = 172 ∧ 16 ≤ ip.b ∧ ip.b ≤ 31) ∨ (ip.a = 192 ∧ ip.b = 168) ∨
          ip.a = 127 ∨ (ip.a = 169 ∧ ip.b = 254) ∨
          (ip.a = 255 ∧ ip.b = 255 ∧ ip.c = 255 ∧ ip.d = 255) ∨
          (224 ≤ ip.a ∧ ip.a ≤ 239) ∨
          (ip.a = 0 ∧ ip.b = 0 ∧ ip.c = 0 ∧ ip.d = 0))) ∧
    (∀ ip : Ipv6Addr, ip.s0 < 65536 →
      (is_global_ipv6 ip = true ↔
        ¬((ip.s0 = 0 ∧ ip.s1 = 0 ∧ ip.s2 = 0 ∧ ip.s3 = 0 ∧
            ip.s4 = 0 ∧ ip.s5 = 0 ∧ ip.s6 = 0 ∧ ip.s7 = 1) ∨
          65280 ≤ ip.s0 ∨
          (ip.s0 = 0 ∧ ip.s1 = 0 ∧ ip.s2 = 0 ∧ ip.s3 = 0 ∧
            ip.s4 = 0 ∧ ip.s5 = 0 ∧ ip.s6 = 0 ∧ ip.s7 = 0)))) ∧
    (∀ ip : Ipv6Addr, 65152 ≤ ip.s0 → ip.s0 ≤ 65215 → is_global_ipv6 ip = true) := by
  refine ⟨?_, ?_, ?_⟩
  · intro ip
    simp only [is_global_ipv4, Ipv4Addr.is_private, Ipv4Addr.is_loopback,
      Ipv4Addr.is_link_local, Ipv4Addr.is_broadcast, Ipv4Addr.is_multicast,
      Ipv4Addr.is_unspecified, Bool.and_eq_true, Bool.not_eq_true', Bool.or_eq_false_iff,
      Bool.and_eq_false_iff, beq_eq_false_iff_ne, ne_eq, decide_eq_false_iff_not, not_le]
    constructor
    · intro h
      omega
    · intro h
      omega
  · intro ip hs0
    simp only [is_global_ipv6, Ipv6Addr.is_loopback, Ipv6Addr.is_multicast,
      Ipv6Addr.is_unspecified, Bool.and_eq_true, Bool.not_eq_true', Bool.and_eq_false_iff,
      beq_eq_false_iff_ne, ne_eq]
    constructor
    · intro h
      omega
    · intro h
      omega
  · intro ip h1 h2
    simp only [is_global_ipv6, Ipv6Addr.is_loopback, Ipv6Addr.is_multicast,
      Ipv6Addr.is_unspecified, Bool.and_eq_true, Bool.not_eq_true', Bool.and_eq_false_iff,
      beq_eq_false_iff_ne, ne_eq]
    omega

/-- C9 witness: a link-local address with an in-range first segment is
classified global by the amended rule, and the first multicast segment
value `0xff00` is classified non-global. -/
theorem c9_amended_witness :
    is_global_ipv6 ⟨65152, 0, 0, 0, 0, 0, 0, 2⟩ = true ∧
    ¬ is_global_ipv6 ⟨65280, 0, 0, 0, 0, 0, 0, 1⟩ = true := by
  constructor
  · exact c9_amended_global_classification.2.2 ⟨65152, 0, 0, 0, 0, 0, 0, 2⟩
      (by decide) (by decide)
  · intro h
    exact (c9_amended_global_classification.2.1 ⟨65280, 0, 0, 0, 0, 0, 0, 1⟩
      (by decide)).mp h (Or.inr (Or.inl (by decide)))

/-- The `analyze_ip_addresses` fold computes, for each of its four
booleans, whether some list element satisfies the corresponding
per-string predicate. -/
theorem analyze_foldl_general (l : List String) (acc : Bool × Bool × Bool × Bool) :
    l.foldl analyzeStep acc =
      (acc.1 || l.any isV4Str, acc.2.1 || l.any isV6Str,
        acc.2.2.1 || l.any isGlobalV4Str, acc.2.2.2 || l.any isGlobalV6Str) := by
  induction l generalizing acc with
  | nil => simp
  | cons s rest ih =>
    rw [List.foldl_cons, ih]
    simp only [List.any_cons]
    cases h : parseIpAddr s.data with
    | none =>
      simp [analyzeStep, isV4Str, isV6Str, isGlobalV4Str, isGlobalV6Str, h]
    | some a =>
      cases a with
      | v4 ip =>
        simp [analyzeStep, isV4Str, isV6Str, isGlobalV4Str, isGlobalV6Str, h, Bool.or_assoc]
      | v6 ip =>
        simp [analyzeStep, isV4Str, isV6Str, isGlobalV4Str, isGlobalV6Str, h, Bool.or_assoc]

theorem analyze_eq_any (l : List String) :
    analyze_ip_addresses l =
      (l.any isV4Str, l.any isV6Str, l.any isGlobalV4Str, l.any isGlobalV6Str) := by
  simpa using analyze_foldl_general l (false, false, false, false)

/-- A string classified as a global IPv4 address parses as IPv4. -/
theorem globalV4_imp_v4 (s : String) : isGlobalV4Str s = true → isV4Str s = true := by
  cases h : parseIpAddr s.data with
  | none => simp [isGlobalV4Str, isV4Str, h]
  | some a => cases a <;> simp [isGlobalV4Str, isV4Str, h]

/-- A string classified as a global IPv6 address parses as IPv6. -/
theorem globalV6_imp_v6 (s : String) : isGlobalV6Str s = true → isV6Str s = true := by
  cases h : parseIpAddr s.data with
  | none => simp [isGlobalV6Str, isV6Str, h]
  | some a => cases a <;> simp [isGlobalV6Str, isV6Str, h]

/-- C10: every adapter built by the inventory pass has its four booleans
consistent with its stored address list: the global flags imply the
family flags, and each flag holds exactly when some stored address
parses to the corresponding family (and, for the global variants,
classifies as global). -/
theorem c10_adapter_boolean_consistency (namesText : List Char)
    (ipOut : String → Option (List Char)) :
    ∀ ad ∈ get_network_interfaces_core namesText ipOut,
      ((ad.has_ipv4_global = true → ad.has_ipv4 = true) ∧
        (ad.has_ipv6_global = true → ad.has_ipv6 = true)) ∧
      (ad.has_ipv4 = true ↔ ∃ s ∈ ad.ip_addresses, isV4Str s = true) ∧
      (ad.has_ipv6 = true ↔ ∃ s ∈ ad.ip_addresses, isV6Str s = true) ∧
      (ad.has_ipv4_global = true ↔ ∃ s ∈ ad.ip_addresses, isGlobalV4Str s = true) ∧
      (ad.has_ipv6_global = true ↔ ∃ s ∈ ad.ip_addresses, isGlobalV6Str s = true) := by
  intro ad had
  simp only [get_network_interfaces_core, List.mem_filterMap] at had
  obtain ⟨nl, _, h⟩ := had
  split at h
  · exact absurd h (by simp)
  · split at h
    · exact absurd h (by simp)
    · cases hout : ipOut (String.mk (trimL nl)) with
      | none => rw [hout] at h; exact absurd h (by simp)
      | some out =>
        rw [hout] at h
        simp only [Option.some.injEq] at h
        subst h
        rw [analyze_eq_any]
        simp only [List.any_eq_true]
        refine ⟨⟨?_, ?_⟩, trivial, trivial, trivial, trivial⟩
        · intro hg
          obtain ⟨s, hs, hgs⟩ := hg
          exact ⟨s, hs, globalV4_imp_v4 s hgs⟩
        · intro hg
          obtain ⟨s, hs, hgs⟩ := hg
          exact ⟨s, hs, globalV6_imp_v6 s hgs⟩

/-- C10 witness: a concrete inventory pass (one adapter, one global IPv4
address) produces an adapter whose `has_ipv4` flag is witnessed by an
address parsing as IPv4. -/
theorem c10_witness :
    ∃ s ∈ (["192.0.2.7"] : List String), isV4Str s = true := by
  have h := c10_adapter_boolean_consistency "Ethernet\n".data
    (fun _ => some "192.0.2.7\n".data)
    ⟨"Ethernet", ["192.0.2.7"], true, false, true, false⟩ (by decide)
  exact h.2.1.mp rfl

/-- Decimal digit characters are never a colon. -/
theorem decDigitChar_ne_colon (k : Nat) : decDigitChar k ≠ ':' := by
  unfold decDigitChar
  split <;> decide

/-- Decimal renderings never contain a colon. -/
theorem colon_not_mem_natDecDigitsAux (fuel n : Nat) : ':' ∉ natDecDigitsAux fuel n := by
  induction fuel generalizing n with
  | zero => simp [natDecDigitsAux]
  | succ fuel ih =>
    unfold natDecDigitsAux
    split
    · simp [(decDigitChar_ne_colon n).symm]
    · simp only [List.mem_append, List.mem_singleton]
      intro h
      rcases h with h | h
      · exact ih (n / 10) h
      · exact decDigitChar_ne_colon (n % 10) h.symm

/-- A rendered IPv4 address contains no colon. -/
theorem colon_not_mem_ipv4Display (ip : Ipv4Addr) : ':' ∉ ipv4Display ip := by
  have hne : (':' : Char) ≠ '.' := by decide
  simp [ipv4Display, natDecDigits, List.mem_append, List.mem_cons,
    colon_not_mem_natDecDigitsAux, hne]

/-- Joining at least two groups always inserts a colon. -/
theorem colon_mem_joinColon (g h : List Char) (t : List (List Char)) :
    ':' ∈ joinColon (g :: h :: t) := by
  simp [joinColon]

/-- A rendered IPv6 address always contains a colon (either the
compression marker or a group separator). -/
theorem colon_mem_ipv6Display (ip : Ipv6Addr) : ':' ∈ ipv6Display ip := by
  unfold ipv6Display
  dsimp only
  split
  · simp
  · simpa [Ipv6Addr.segs] using
      colon_mem_joinColon (natHexDigits ip.s0) (natHexDigits ip.s1)
        [natHexDigits ip.s2, natHexDigits ip.s3, natHexDigits ip.s4,
          natHexDigits ip.s5, natHexDigits ip.s6, natHexDigits ip.s7]

/-- Shape of the `resolve_dns` loop: it only appends to its accumulators,
and what it appends is, in order, a sublist of the per-family rendered
projections of the remaining resolver output. -/
theorem resolveDnsLoop_shape (addrs : List IpAddr) :
    ∀ v4s v6s, ∃ t u,
      resolveDnsLoop addrs v4s v6s = ⟨v4s ++ t, v6s ++ u⟩ ∧
      t.Sublist (addrs.filterMap projV4) ∧ u.Sublist (addrs.filterMap projV6) := by
  induction addrs with
  | nil =>
    intro v4s v6s
    exact ⟨[], [], by simp [resolveDnsLoop], by simp, by simp⟩
  | cons a rest ih =>
    intro v4s v6s
    cases a with
    | v4 ip =>
      simp only [resolveDnsLoop, List.filterMap_cons, projV4]
      split
      · obtain ⟨t, u, heq, ht, hu⟩ := ih v4s v6s
        exact ⟨t, u, heq, ht.cons _, hu⟩
      · obtain ⟨t, u, heq, ht, hu⟩ := ih (v4s ++ [ipv4DisplayS ip]) v6s
        refine ⟨ipv4DisplayS ip :: t, u, ?_, ht.cons₂ _, hu⟩
        rw [heq, List.append_assoc]
        rfl
    | v6 ip =>
      simp only [resolveDnsLoop, List.filterMap_cons, projV6]
      split
      · obtain ⟨t, u, heq, ht, hu⟩ := ih v4s v6s
        exact ⟨t, u, heq, ht, hu.cons _⟩
      · obtain ⟨t, u, heq, ht, hu⟩ := ih v4s (v6s ++ [ipv6DisplayS ip])
        refine ⟨t, ipv6DisplayS ip :: u, ?_, ht, hu.cons₂ _⟩
        rw [heq, List.append_assoc]
        rfl

/-- The `resolve_dns` loop preserves no-duplicates of both accumulators. -/
theorem resolveDnsLoop_nodup (addrs : List IpAddr) :
    ∀ v4s v6s, v4s.Nodup → v6s.Nodup →
      (resolveDnsLoop addrs v4s v6s).ipv4_addresses.Nodup ∧
      (resolveDnsLoop addrs v4s v6s).ipv6_addresses.Nodup := by
  induction addrs with
  | nil =>
    intro v4s v6s h4 h6
    exact ⟨h4, h6⟩
  | cons a rest ih =>
    intro v4s v6s h4 h6
    cases a with
    | v4 ip =>
      simp only [resolveDnsLoop]
      split
      · exact ih v4s v6s h4 h6
      · refine ih _ v6s ?_ h6
        have hnm : ipv4DisplayS ip ∉ v4s := by
          simp_all [List.contains]
        simp [List.nodup_append, h4, hnm]
    | v6 ip =>
      simp only [resolveDnsLoop]
      split
      · exact ih v4s v6s h4 h6
      · refine ih v4s _ h4 ?_
        have hnm : ipv6DisplayS ip ∉ v6s := by
          simp_all [List.contains]
        simp [List.nodup_append, h6, hnm]

/-- Every rendered address of the resolver output ends up in the
corresponding family list of the `resolve_dns` loop. -/
theorem resolveDnsLoop_complete (addrs : List IpAddr) :
    ∀ v4s v6s,
      (∀ s, s ∈ addrs.filterMap projV4 ∨ s ∈ v4s →
        s ∈ (resolveDnsLoop addrs v4s v6s).ipv4_addresses) ∧
      (∀ s, s ∈ addrs.filterMap projV6 ∨ s ∈ v6s →
        s ∈ (resolveDnsLoop addrs v4s v6s).ipv6_addresses) := by
  induction addrs with
  | nil =>
    intro v4s v6s
    constructor
    · intro s hs
      rcases hs with hs | hs
      · simp at hs
      · simpa [resolveDnsLoop] using hs
    · intro s hs
      rcases hs with hs | hs
      · simp at hs
      · simpa [resolveDnsLoop] using hs
  | cons a rest ih =>
    intro v4s v6s
    cases a with
    | v4 ip =>
      simp only [resolveDnsLoop, List.filterMap_cons, projV4]
      constructor
      · intro s hs
        split
        · refine (ih v4s v6s).1 s ?_
          rcases hs with hs | hs
          · rcases List.mem_cons.mp hs with hs | hs
            · subst hs
              right
              simp_all [List.contains]
            · exact Or.inl hs
          · exact Or.inr hs
        · refine (ih (v4s ++ [ipv4DisplayS ip]) v6s).1 s ?_
          rcases hs with hs | hs
          · rcases List.mem_cons.mp hs with hs | hs
            · subst hs
              right
              simp
            · exact Or.inl hs
          · right
            simp [hs]
      · intro s hs
        split
        · exact (ih v4s v6s).2 s hs
        · exact (ih (v4s ++ [ipv4DisplayS ip]) v6s).2 s hs
    | v6 ip =>
      simp only [resolveDnsLoop, List.filterMap_cons, projV6]
      constructor
      · intro s hs
        split
        · exact (ih v4s v6s).1 s hs
        · exact (ih v4s (v6s ++ [ipv6DisplayS ip])).1 s hs
      · intro s hs
        split
        · refine (ih v4s v6s).2 s ?_
          rcases hs with hs | hs
          · rcases List.mem_cons.mp hs with hs | hs
            · subst hs
              right
              simp_all [List.contains]
            · exact Or.inl hs
          · exact Or.inr hs
        · refine (ih v4s (v6s ++ [ipv6DisplayS ip])).2 s ?_
          rcases hs with hs | hs
          · rcases List.mem_cons.mp hs with hs | hs
            · subst hs
              right
              simp
            · exact Or.inl hs
          · right
            simp [hs]

/-- C7: every `resolve_dns` result has duplicate-free family lists, no
address string in both lists, each list a discovery-order-preserving
sublist of the rendered per-family resolver output containing all of it
(i.e. the first-occurrence dedup of that output), and a resolver error
yields the empty resolution. -/
theorem c7_dns_resolution_invariants (outcome : LookupOutcome) :
    (resolve_dns outcome).ipv4_addresses.Nodup ∧
    (resolve_dns outcome).ipv6_addresses.Nodup ∧
    (∀ s ∈ (resolve_dns outcome).ipv4_addresses,
      s ∉ (resolve_dns outcome).ipv6_addresses) ∧
    (∀ addrs, outcome = LookupOutcome.ok addrs →
      (resolve_dns outcome).ipv4_addresses.Sublist (addrs.filterMap projV4) ∧
      (∀ s ∈ addrs.filterMap projV4, s ∈ (resolve_dns outcome).ipv4_addresses) ∧
      (resolve_dns outcome).ipv6_addresses.Sublist (addrs.filterMap projV6) ∧
      (∀ s ∈ addrs.filterMap projV6, s ∈ (resolve_dns outcome).ipv6_addresses)) ∧
    (outcome = LookupOutcome.err → resolve_dns outcome = ⟨[], []⟩) := by
  cases outcome with
  | err =>
    refine ⟨by simp [resolve_dns], by simp [resolve_dns], ?_, ?_, fun _ => rfl⟩
    · intro s hs
      simp [resolve_dns] at hs
    · intro addrs h
      cases h
  | ok addrs =>
    have hshape := resolveDnsLoop_shape addrs [] []
    obtain ⟨t, u, heq, ht, hu⟩ := hshape
    have hnodup := resolveDnsLoop_nodup addrs [] [] List.nodup_nil List.nodup_nil
    have hcomp := resolveDnsLoop_complete addrs [] []
    refine ⟨hnodup.1, hnodup.2, ?_, ?_, ?_⟩
    · intro s hs hs6
      have hs4' : s ∈ addrs.filterMap projV4 := by
        have : (resolve_dns (LookupOutcome.ok addrs)).ipv4_addresses = t := by
          simp [resolve_dns, heq]
        rw [this] at hs
        exact ht.subset hs
      have hs6' : s ∈ addrs.filterMap projV6 := by
        have : (resolve_dns (LookupOutcome.ok addrs)).ipv6_addresses = u := by
          simp [resolve_dns, heq]
        rw [this] at hs6
        exact hu.subset hs6
      obtain ⟨a4, _, hp4⟩ := List.mem_filterMap.mp hs4'
      obtain ⟨a6, _, hp6⟩ := List.mem_filterMap.mp hs6'
      cases a4 with
      | v6 ip => simp [projV4] at hp4
      | v4 ip =>
        cases a6 with
        | v4 ip' => simp [projV6] at hp6
        | v6 ip' =>
          simp only [projV4, Option.some.injEq] at hp4
          simp only [projV6, Option.some.injEq] at hp6
          have hc4 : ':' ∉ s.data := by
            rw [← hp4]
            exact colon_not_mem_ipv4Display ip
          have hc6 : ':' ∈ s.data := by
            rw [← hp6]
            exact colon_mem_ipv6Display ip'
          exact hc4 hc6
    · intro addrs' h
      cases h
      refine ⟨?_, ?_, ?_, ?_⟩
      · simpa [resolve_dns, heq] using ht
      · intro s hs
        exact (hcomp.1 s (Or.inl hs))
      · simpa [resolve_dns, heq] using hu
      · intro s hs
        exact (hcomp.2 s (Or.inl hs))
    · intro h
      cases h

/-- C7 witness: a concrete resolver outcome with one IPv4 and one IPv6
address (the IPv4 one repeated) satisfies the invariants via the theorem. -/
theorem c7_witness :
    (resolve_dns (LookupOutcome.ok
        [IpAddr.v4 ⟨1, 2, 3, 4⟩, IpAddr.v4 ⟨1, 2, 3, 4⟩,
          IpAddr.v6 ⟨0, 0, 0, 0, 0, 0, 0, 1⟩])).ipv4_addresses.Nodup ∧
    (resolve_dns (LookupOutcome.ok
        [IpAddr.v4 ⟨1, 2, 3, 4⟩, IpAddr.v4 ⟨1, 2, 3, 4⟩,
          IpAddr.v6 ⟨0, 0, 0, 0, 0, 0, 0, 1⟩])).ipv4_addresses.Sublist
      ([IpAddr.v4 ⟨1, 2, 3, 4⟩, IpAddr.v4 ⟨1, 2, 3, 4⟩,
          IpAddr.v6 ⟨0, 0, 0, 0, 0, 0, 0, 1⟩].filterMap projV4) := by
  have h := c7_dns_resolution_invariants (LookupOutcome.ok
    [IpAddr.v4 ⟨1, 2, 3, 4⟩, IpAddr.v4 ⟨1, 2, 3, 4⟩, IpAddr.v6 ⟨0, 0, 0, 0, 0, 0, 0, 1⟩])
  exact ⟨h.1, (h.2.2.2.1 _ rfl).1⟩

/-- The PowerShell strategy's emission fold only ever appends records
with at least one address in either family. -/
theorem psEmit_spec (m : List (String × (List String × List String))) :
    ∀ acc : List DnsServerInfo,
      (∀ r ∈ acc, r.ipv4_dns_servers ≠ [] ∨ r.ipv6_dns_servers ≠ []) →
      ∀ r ∈ m.foldl
          (fun acc e =>
            if e.2.1 ≠ [] ∨ e.2.2 ≠ [] then acc ++ [⟨e.1, e.2.1, e.2.2⟩] else acc)
          acc,
        r.ipv4_dns_servers ≠ [] ∨ r.ipv6_dns_servers ≠ [] := by
  induction m with
  | nil =>
    intro acc hacc r hr
    exact hacc r hr
  | cons e rest ih =>
    intro acc hacc r hr
    rw [List.foldl_cons] at hr
    by_cases hc : e.2.1 ≠ [] ∨ e.2.2 ≠ []
    · rw [if_pos hc] at hr
      refine ih _ ?_ r hr
      intro r' hr'
      rcases List.mem_append.mp hr' with h | h
      · exact hacc r' h
      · rw [List.mem_singleton] at h
        subst h
        exact hc
    · rw [if_neg hc] at hr
      exact ih _ hacc r hr

/-- `bucketDedup` preserves no-duplicates of both buckets. -/
theorem bucketDedup_nodup (v4s v6s : List String) (tok : List Char)
    (h4 : v4s.Nodup) (h6 : v6s.Nodup) :
    (bucketDedup v4s v6s tok).1.Nodup ∧ (bucketDedup v4s v6s tok).2.Nodup := by
  unfold bucketDedup
  dsimp only
  split
  · refine ⟨h4, ?_⟩
    split
    · exact h6
    · have : String.mk tok ∉ v6s := by simp_all [List.contains]
      simp [List.nodup_append, h6, this]
  · split
    · refine ⟨?_, h6⟩
      split
      · exact h4
      · have : String.mk tok ∉ v4s := by simp_all [List.contains]
        simp [List.nodup_append, h4, this]
    · exact ⟨h4, h6⟩

/-- `ipconfigFlush` preserves the record invariant. -/
theorem ipconfigFlush_spec (cur : Option String) (v4s v6s : List String)
    (acc : List DnsServerInfo) (h4 : v4s.Nodup) (h6 : v6s.Nodup)
    (hacc : ∀ r ∈ acc, r.ipv4_dns_servers.Nodup ∧ r.ipv6_dns_servers.Nodup ∧
      (r.ipv4_dns_servers ≠ [] ∨ r.ipv6_dns_servers ≠ [])) :
    ∀ r ∈ ipconfigFlush cur v4s v6s acc,
      r.ipv4_dns_servers.Nodup ∧ r.ipv6_dns_servers.Nodup ∧
      (r.ipv4_dns_servers ≠ [] ∨ r.ipv6_dns_servers ≠ []) := by
  intro r hr
  unfold ipconfigFlush at hr
  cases cur with
  | none => exact hacc r hr
  | some name =>
    have hr' : r ∈ if v4s ≠ [] ∨ v6s ≠ [] then
        acc ++ [(⟨name, v4s, v6s⟩ : DnsServerInfo)] else acc := hr
    by_cases hcond : v4s ≠ [] ∨ v6s ≠ []
    · rw [if_pos hcond] at hr'
      rcases List.mem_append.mp hr' with h | h
      · exact hacc r h
      · rw [List.mem_singleton] at h
        subst h
        exact ⟨h4, h6, hcond⟩
    · rw [if_neg hcond] at hr'
      exact hacc r hr'

/-- Invariant of the ipconfig line loop: from duplicate-free buckets and
an invariant-satisfying accumulator, every record of a successful parse
satisfies the invariant. -/
theorem ipconfigLoop_spec (lines : List (List Char)) :
    ∀ (cur : Option String) (v4s v6s : List String) (acc : List DnsServerInfo)
      (res : List DnsServerInfo),
      v4s.Nodup → v6s.Nodup →
      (∀ r ∈ acc, r.ipv4_dns_servers.Nodup ∧ r.ipv6_dns_servers.Nodup ∧
        (r.ipv4_dns_servers ≠ [] ∨ r.ipv6_dns_servers ≠ [])) →
      ipconfigLoop lines cur v4s v6s acc = some res →
      ∀ r ∈ res, r.ipv4_dns_servers.Nodup ∧ r.ipv6_dns_servers.Nodup ∧
        (r.ipv4_dns_servers ≠ [] ∨ r.ipv6_dns_servers ≠ []) := by
  induction lines with
  | nil =>
    intro cur v4s v6s acc res h4 h6 hacc hl
    rw [ipconfigLoop] at hl
    cases hl
    exact ipconfigFlush_spec cur v4s v6s acc h4 h6 hacc
  | cons line rest ih =>
    intro cur v4s v6s acc res h4 h6 hacc hl
    rw [ipconfigLoop] at hl
    dsimp only at hl
    split at hl
    · split at hl
      · split at hl
        · exact Option.noConfusion hl
        · exact ih _ _ _ _ _ List.nodup_nil List.nodup_nil
            (ipconfigFlush_spec cur v4s v6s acc h4 h6 hacc) hl
      · exact ih _ _ _ _ _ h4 h6
          (ipconfigFlush_spec cur v4s v6s acc h4 h6 hacc) hl
    · split at hl
      · split at hl
        · split at hl
          · exact ih _ _ _ _ _ (bucketDedup_nodup v4s v6s _ h4 h6).1
              (bucketDedup_nodup v4s v6s _ h4 h6).2 hacc hl
          · exact ih _ _ _ _ _ h4 h6 hacc hl
        · exact ih _ _ _ _ _ h4 h6 hacc hl
      · split at hl
        · exact ih _ _ _ _ _ (bucketDedup_nodup v4s v6s _ h4 h6).1
            (bucketDedup_nodup v4s v6s _ h4 h6).2 hacc hl
        · exact ih _ _ _ _ _ h4 h6 hacc hl

/-- C6 (amended): both discovery strategies emit a record only when at
least one DNS address exists in either family, and the verbose ipconfig
strategy's records have per-interface deduplicated v4 and v6 lists; the
flat PowerShell strategy does not deduplicate. -/
theorem c6_amended_emission_and_dedup :
    (∀ (text : List Char), ∀ rec ∈ get_dns_servers_from_powershell_core text,
      rec.ipv4_dns_servers ≠ [] ∨ rec.ipv6_dns_servers ≠ []) ∧
    (∀ (text : List Char) (res : List DnsServerInfo),
      parse_dns_from_ipconfig_core text = some res →
      ∀ rec ∈ res,
        rec.ipv4_dns_servers.Nodup ∧ rec.ipv6_dns_servers.Nodup ∧
        (rec.ipv4_dns_servers ≠ [] ∨ rec.ipv6_dns_servers ≠ [])) := by
  constructor
  · intro text rec hrec
    exact psEmit_spec (psParseLines text) [] (by simp) rec hrec
  · intro text res hres rec hrec
    exact ipconfigLoop_spec (linesOf text) none [] [] [] res List.nodup_nil
      List.nodup_nil (by simp) hres rec hrec

/-- C6 witness: the duplicated-input PowerShell record is emitted with a
nonempty family list, and the first English-dump ipconfig record has
deduplicated, nonempty lists. -/
theorem c6_amended_witness :
    ((⟨"Ethernet", ["8.8.8.8", "8.8.8.8"], []⟩ : DnsServerInfo).ipv4_dns_servers ≠ [] ∨
      (⟨"Ethernet", ["8.8.8.8", "8.8.8.8"], []⟩ : DnsServerInfo).ipv6_dns_servers ≠ []) ∧
    ((⟨"Ethernet", ["8.8.8.8"], ["2001:4860:4860::8888"]⟩ :
        DnsServerInfo).ipv4_dns_servers.Nodup ∧
      (⟨"Ethernet", ["8.8.8.8"], ["2001:4860:4860::8888"]⟩ :
        DnsServerInfo).ipv6_dns_servers.Nodup ∧
      ((⟨"Ethernet", ["8.8.8.8"], ["2001:4860:4860::8888"]⟩ :
          DnsServerInfo).ipv4_dns_servers ≠ [] ∨
        (⟨"Ethernet", ["8.8.8.8"], ["2001:4860:4860::8888"]⟩ :
          DnsServerInfo).ipv6_dns_servers ≠ [])) := by
  constructor
  · exact c6_amended_emission_and_dedup.1 psDupText.data
      ⟨"Ethernet", ["8.8.8.8", "8.8.8.8"], []⟩ (by decide)
  · exact c6_amended_emission_and_dedup.2 enDump.data
      [⟨"Ethernet", ["8.8.8.8"], ["2001:4860:4860::8888"]⟩,
        ⟨"Wi-Fi", ["1.1.1.1"], ["2606:4700:4700::1111"]⟩] rfl
      ⟨"Ethernet", ["8.8.8.8"], ["2001:4860:4860::8888"]⟩ (by decide)
